import Mathlib

deriving instance DecidableEq for Except

/-
  Shallow embedding of the HBAR coin-service repository
  (src/coin.service.ts, src/node-adapter.ts, src/common/index.ts).

  JavaScript numbers are modelled by `JSNum`: NaN, the two infinities and
  finite values as exact rationals.  External SDK operations
  (serialization, signing, key parsing, network transport) are passed in
  as explicit function parameters, so the theorems quantify over every
  possible behaviour of those collaborators.
-/

/-- Product of two rationals, written through `mkRat` so that closed
instances reduce inside the kernel; `ratMul_eq` shows it is ordinary
rational multiplication. -/
def ratMul (a b : ℚ) : ℚ := mkRat (a.num * b.num) (a.den * b.den)

/-- Floor of `q + 1/2`, written through `mkRat` so that closed instances
reduce inside the kernel; `roundHalfUp_eq` shows the equivalence. -/
def roundHalfUp (q : ℚ) : ℤ := (mkRat (2 * q.num + q.den) (2 * q.den)).floor

/-- Model of a JavaScript number: NaN, +Infinity, -Infinity, or a finite
value represented exactly as a rational. -/
inductive JSNum where
  | nan : JSNum
  | inf : JSNum
  | ninf : JSNum
  | fin (q : ℚ) : JSNum
deriving DecidableEq

/-- JavaScript multiplication on the `JSNum` model (IEEE-754 sign rules for
infinities; NaN is absorbing; finite times finite is exact here). -/
def jsMul : JSNum → JSNum → JSNum
  | .nan, _ => .nan
  | _, .nan => .nan
  | .inf, .inf => .inf
  | .inf, .ninf => .ninf
  | .ninf, .inf => .ninf
  | .ninf, .ninf => .inf
  | .inf, .fin q => if 0 < q then .inf else if q < 0 then .ninf else .nan
  | .fin q, .inf => if 0 < q then .inf else if q < 0 then .ninf else .nan
  | .ninf, .fin q => if 0 < q then .ninf else if q < 0 then .inf else .nan
  | .fin q, .ninf => if 0 < q then .ninf else if q < 0 then .inf else .nan
  | .fin a, .fin b => .fin (ratMul a b)

/-- Math.round: round half toward positive infinity, i.e. floor(x + 1/2)
on finite values; NaN and the infinities are returned unchanged. -/
def jsRound : JSNum → JSNum
  | .nan => .nan
  | .inf => .inf
  | .ninf => .ninf
  | .fin q => .fin ((roundHalfUp q : ℤ) : ℚ)

/-- JavaScript falsiness of a number (the test `!x`): true exactly for
NaN and zero. -/
def jsFalsy : JSNum → Bool
  | .nan => true
  | .inf => false
  | .ninf => false
  | .fin q => q = 0

/-- The JavaScript comparison `x <= 0`: false for NaN, true for
-Infinity, and the rational comparison on finite values. -/
def jsLe0 : JSNum → Bool
  | .nan => false
  | .inf => false
  | .ninf => true
  | .fin q => q ≤ 0

/-- Number.isFinite on the model. -/
def jsIsFinite : JSNum → Bool
  | .fin _ => true
  | _ => false

/-- JavaScript unary negation on the model. -/
def jsNeg : JSNum → JSNum
  | .nan => .nan
  | .inf => .ninf
  | .ninf => .inf
  | .fin q => .fin (-q)

/-- Rendering of a number into an error-message string.  JavaScript
decimal formatting is abstracted: integers print exactly as in JS, which
is the only case the validated paths can reach. -/
def numStr : JSNum → String
  | .nan => "NaN"
  | .inf => "Infinity"
  | .ninf => "-Infinity"
  | .fin q => if q.den = 1 then toString q.num else toString q

/-- One sender or receiver entry (FromParams / ToParams in
src/common/index.ts).  The `value` field holds the JavaScript number
obtained from `Number(leg.value)` applied to the decimal string (or
null) of the source type. -/
structure TransferLeg where
  address : String
  value : JSNum
deriving DecidableEq

/-- TransactionParams from src/common/index.ts: `from` and `to` are
accepted either as a single leg or as an array of legs. -/
structure TransactionParams where
  «from» : TransferLeg ⊕ List TransferLeg
  «to» : TransferLeg ⊕ List TransferLeg
  fee : Option ℚ
  spent : Option (List (String × List String))
  utxo : Option (List (String × List String))
  unsignedTx : String
deriving DecidableEq

/-- Result of txBuild: the input params with `from` and `to` replaced by
the normalized arrays and `unsignedTx` replaced by the serialized frozen
transaction. -/
structure BuiltParams where
  «from» : List TransferLeg
  «to» : List TransferLeg
  fee : Option ℚ
  spent : List (String × List String)
  utxo : List (String × List String)
  unsignedTx : String
deriving DecidableEq

/-- The normalization `Array.isArray(x) ? x : [x]` from the first lines
of txBuild (src/coin.service.ts lines 285-286). -/
def normLegs : TransferLeg ⊕ List TransferLeg → List TransferLeg
  | .inl l => [l]
  | .inr ls => ls

/-- The per-leg converted atomic amount of txBuild:
`Math.round(Number(leg.value) * factor)` (src/coin.service.ts lines
311-312 and 332-333). -/
def convertAmount (factor : JSNum) (v : JSNum) : JSNum :=
  jsRound (jsMul v factor)

/-- The amount rejection test of txBuild:
`!amountTiny || amountTiny <= 0` (src/coin.service.ts lines 314, 335). -/
def amountInvalid (a : JSNum) : Bool :=
  jsFalsy a || jsLe0 a

/-- Error message thrown for an invalid debit amount
(src/coin.service.ts line 321). -/
def debitMsg (addr : String) (a : JSNum) : String :=
  "Некорректная сумма списания для " ++ addr ++ ": " ++ numStr a

/-- Error message thrown for an invalid credit amount
(src/coin.service.ts line 342). -/
def creditMsg (addr : String) (a : JSNum) : String :=
  "Некорректная сумма начисления для " ++ addr ++ ": " ++ numStr a

/-- The default conversion factor 100000000 used when the
TINYBAR_CONVERSION_FACTOR environment variable is unset. -/
def defaultFactor : JSNum := .fin 100000000

/-- One of the two leg loops of txBuild: validates each leg amount in
order (throwing `msg` for the first invalid one) and accumulates the
tinybar transfers added to the TransferTransaction.  For from-legs the
amount is negated (`neg = true`). -/
def addTransfers (factor : JSNum) (msg : String → JSNum → String) (neg : Bool) :
    List TransferLeg → Except String (List (String × JSNum))
  | [] => .ok []
  | l :: ls =>
    let a := convertAmount factor l.value
    if amountInvalid a then .error (msg l.address a)
    else
      match addTransfers factor msg neg ls with
      | .error e => .error e
      | .ok rest => .ok ((l.address, if neg then jsNeg a else a) :: rest)

/-- Shallow embedding of HBARCoinService.txBuild (src/coin.service.ts
lines 278-369).  `serialize` abstracts the SDK chain
freezeWith + toBytes + hex encoding applied to the accumulated transfer
list; logging is side-effect free and omitted. -/
def txBuild (factor : JSNum) (serialize : List (String × JSNum) → String)
    (p : TransactionParams) : Except String BuiltParams :=
  let fromArr := normLegs p.«from»
  let toArr := normLegs p.«to»
  if fromArr = [] then .error "Отсутствует список отправителей"
  else if toArr = [] then .error "Отсутствует список получателей"
  else
    match addTransfers factor debitMsg true fromArr with
    | .error e => .error e
    | .ok debits =>
      match addTransfers factor creditMsg false toArr with
      | .error e => .error e
      | .ok credits =>
        .ok { «from» := fromArr
              «to» := toArr
              fee := p.fee
              spent := p.spent.getD []
              utxo := p.utxo.getD []
              unsignedTx := serialize (debits ++ credits) }


/-- Result handed back by txSign (TxSignResult in src/common/index.ts);
the source always supplies txHash, defaulting to "" when the SDK gives
no transaction id. -/
structure TxSignResult where
  signedData : String
  txHash : String
deriving DecidableEq

/-- Output of the SDK signing chain
(PrivateKey.fromStringECDSA + TransferTransaction.fromBytes + sign +
toBytes): the hex of the signed bytes and the optional transaction id. -/
structure SignedTx where
  bytesHex : String
  txid : Option String
deriving DecidableEq

/-- Lookup in the AddressKeyPair map `privateKeys[addr]`: the private
key string stored for the address, if any. -/
def jsLookup (m : List (String × String)) (k : String) : Option String :=
  (m.find? fun e => e.1 = k).map fun e => e.2

/-- The expression `params.from[0]` of txSign: on an array it is the
head (undefined when empty); on a singular object, indexing by 0 yields
undefined. -/
def legsIndex0 : TransferLeg ⊕ List TransferLeg → Option TransferLeg
  | .inl _ => none
  | .inr ls => ls.head?

/-- Shallow embedding of HBARCoinService.txSign (src/coin.service.ts
lines 215-267).  `sign` abstracts the SDK signing chain, which may
throw; the catch block logs and re-throws unchanged, so every raised
error surfaces to the caller as is.  Reading `.address` of the
undefined `params.from[0]` raises a TypeError, modelled as that error
string. -/
def txSign (sign : String → String → Except String SignedTx)
    (privateKeys : List (String × String)) (p : TransactionParams) :
    Except String TxSignResult :=
  if p.unsignedTx = "" then .error "Нет данных для подписи (unsignedTx)"
  else
    match legsIndex0 p.«from» with
    | none => .error "TypeError: Cannot read properties of undefined (reading 'address')"
    | some leg =>
      let signerAddr := leg.address
      match jsLookup privateKeys signerAddr with
      | none => .error ("Нет приватного ключа для " ++ signerAddr)
      | some privHex =>
        if privHex = "" then .error ("Нет приватного ключа для " ++ signerAddr)
        else
          match sign privHex p.unsignedTx with
          | .error e => .error e
          | .ok st => .ok { signedData := st.bytesHex, txHash := st.txid.getD "" }

/-- Return type of addressValidate (AddressValidateResult in
src/common/index.ts is the union `string | true`): the literal true, or
a human-readable reason string. -/
inductive AddressValidateResult where
  | valid : AddressValidateResult
  | invalid (reason : String) : AddressValidateResult
deriving DecidableEq

/-- The SDK parsing collaborators used by addressValidate.
parseAccountId abstracts whether AccountId.fromString succeeds;
parsePrivateKey abstracts PrivateKey.fromStringED25519; parsePublicKey
abstracts PublicKey.fromString; privToPubStr is
`priv.publicKey.toString()`; pubToStr is `pub.toString()`. -/
structure HederaParsers (PrivK PubK : Type) where
  parseAccountId : String → Bool
  parsePrivateKey : String → Option PrivK
  parsePublicKey : String → Option PubK
  privToPubStr : PrivK → String
  pubToStr : PubK → String

/-- Shallow embedding of HBARCoinService.addressValidate
(src/coin.service.ts lines 147-207): every SDK parse throw is caught
and turned into a reason string, so the function is total and never
throws; checks run in the fixed order of the source. -/
def addressValidate {PrivK PubK : Type} (P : HederaParsers PrivK PubK)
    (address privateKey publicKey : String) : AddressValidateResult :=
  if address = "" then .invalid "Адрес отсутствует"
  else if ¬ P.parseAccountId address then .invalid "Неверный формат Hedera AccountId"
  else if privateKey = "" then .invalid "Приватный ключ отсутствует"
  else
    match P.parsePrivateKey privateKey with
    | none => .invalid "Некорректный формат приватного ключа (ожидается Hedera ED25519)"
    | some priv =>
      if publicKey = "" then .invalid "Публичный ключ отсутствует"
      else
        match P.parsePublicKey publicKey with
        | none => .invalid "Некорректный формат публичного ключа (ожидается Hedera ED25519)"
        | some pub =>
          if P.privToPubStr priv ≠ P.pubToStr pub
          then .invalid "Публичный ключ не соответствует приватному ключу"
          else .valid

/-- The rule-7 condition of the §4.1 check order (public key derivable
from the private key equals the supplied public key), false whenever a
key fails to parse (earlier rules fire in that case). -/
def keysMatch {PrivK PubK : Type} (P : HederaParsers PrivK PubK)
    (privateKey publicKey : String) : Bool :=
  match P.parsePrivateKey privateKey, P.parsePublicKey publicKey with
  | some priv, some pub => P.privToPubStr priv = P.pubToStr pub
  | _, _ => false

/-- Specification-side description of addressValidate, written from the
spec wording of §4.1: the ordered list of checks with their failure
reasons. -/
def specChecks {PrivK PubK : Type} (P : HederaParsers PrivK PubK)
    (address privateKey publicKey : String) : List (Bool × String) :=
  [ (address ≠ "", "Адрес отсутствует"),
    (P.parseAccountId address, "Неверный формат Hedera AccountId"),
    (privateKey ≠ "", "Приватный ключ отсутствует"),
    ((P.parsePrivateKey privateKey).isSome,
      "Некорректный формат приватного ключа (ожидается Hedera ED25519)"),
    (publicKey ≠ "", "Публичный ключ отсутствует"),
    ((P.parsePublicKey publicKey).isSome,
      "Некорректный формат публичного ключа (ожидается Hedera ED25519)"),
    (keysMatch P privateKey publicKey, "Публичный ключ не соответствует приватному ключу") ]

/-- Specification-side evaluator: the reason of the first failing check,
or the literal true when every check passes. -/
def firstFailure : List (Bool × String) → AddressValidateResult
  | [] => .valid
  | (pass, msg) :: rest => if pass then firstFailure rest else .invalid msg

/-- The broadcast parameters (TransactionBroadcastParams in
src/common/index.ts). -/
structure TransactionBroadcastParams where
  signedData : String
deriving DecidableEq

/-- The two FAST_TEST environment variables read by txBroadcast. -/
structure BroadcastEnv where
  operatorId : Option String
  operatorKey : Option String

/-- JavaScript truthiness of an optional string: collapses the empty
string to none, since `!s` is true for both undefined and "". -/
def jsPresent : Option String → Option String
  | none => none
  | some s => if s = "" then none else some s

/-- Which decoding txBroadcast picks for the signed payload. -/
inductive BytesEncoding where
  | hex : BytesEncoding
  | base64 : BytesEncoding
deriving DecidableEq

/-- The regex test `^[0-9a-fA-F]+$` of txBroadcast: non-empty and every
character a hex digit. -/
def isHexStr (s : String) : Bool :=
  s ≠ "" && s.all fun c => c.isDigit || ("a" ≤ c.toString && c.toString ≤ "f")
    || ("A" ≤ c.toString && c.toString ≤ "F")

/-- The SDK collaborators of txBroadcast: setOperator abstracts
AccountId.fromString + PrivateKey.fromString + client construction (any
of which may throw); runTx abstracts Transaction.fromBytes + execute +
getReceipt and returns the transaction id and the receipt status. -/
structure BroadcastOps where
  setOperator : String → String → Except String Unit
  runTx : BytesEncoding → String → Except String (String × String)

/-- Typed result of txBroadcast: `{hash}` on success, `{error}` on
failure. -/
inductive BroadcastOutcome where
  | success (hash : String) : BroadcastOutcome
  | failure (errorMsg : String) : BroadcastOutcome
deriving DecidableEq

/-- Shallow embedding of HBARNodeAdapter.txBroadcast
(src/node-adapter.ts lines 292-357).  The whole body sits inside a
try/catch whose catch returns `{error: err.message}` as a value, so the
function is total into `BroadcastOutcome`.  Every error message in the
model is non-empty, so the `?? "Broadcast failed"` fallback never
fires. -/
def txBroadcast (env : BroadcastEnv) (ops : BroadcastOps)
    (p : TransactionBroadcastParams) : BroadcastOutcome :=
  let attempt : Except String String :=
    if p.signedData = "" then .error "Отсутствует signedData"
    else
      match jsPresent env.operatorId, jsPresent env.operatorKey with
      | some oid, some okey =>
        (match ops.setOperator oid okey with
         | .error e => .error e
         | .ok _ =>
           let enc := if isHexStr p.signedData then BytesEncoding.hex else BytesEncoding.base64
           match ops.runTx enc p.signedData with
           | .error e => .error e
           | .ok r => .ok r.1)
      | _, _ => .error "Не заданы FAST_TEST_FROM_ID или FAST_TEST_FROM_PRIVATE_KEY"
  match attempt with
  | .ok h => .success h
  | .error e => .failure e

/-- One raw transaction inside a Mirror Node block payload. -/
structure RawBlockTx where
  transaction_id : String
  result : String
deriving DecidableEq

/-- One raw block of the Mirror Node response `data.blocks`. -/
structure RawBlock where
  number : Nat
  timestampFrom : String
  transactions : List RawBlockTx
deriving DecidableEq

/-- A transaction as produced by getBlock (the Transaction shape of
src/common/index.ts, whose declared status domain is the TxStatus enum;
getBlock fills status with a raw string instead, see C8). -/
structure BlockTransaction where
  hash : String
  ticker : String
  «from» : List TransferLeg
  «to» : List TransferLeg
  status : String
  height : Nat
deriving DecidableEq

/-- The Block result shape of getBlock.  The Date constructed from
`block.timestamp.from.split(".")[0]` is kept as the seconds string; the
raw block is retained in `data`. -/
structure BlockResult where
  height : Nat
  timestampSecStr : String
  transactions : List BlockTransaction
  data : RawBlock
deriving DecidableEq

/-- The values of the TxStatus enum of src/common/index.ts. -/
def txStatusValues : List String := ["finished", "failed", "unknown"]

/-- The status mapping of getBlock (src/node-adapter.ts line 210):
`tx.result === "SUCCESS" ? "success" : "failed"`. -/
def blockTxStatus (result : String) : String :=
  if result = "SUCCESS" then "success" else "failed"

/-- Model of `s.split(".")[0]`: the prefix of the string before its
first period (the whole string when no period occurs). -/
def beforeFirstDot (s : String) : String :=
  String.mk (s.toList.takeWhile fun c => c ≠ '.')

/-- Shallow embedding of HBARNodeAdapter.getBlock (src/node-adapter.ts
lines 173-225).  `getHeightRes` is the outcome of the getHeight() call
made first; `fetchBlocks` abstracts the Mirror Node request for
`/api/v1/blocks/{height}` and is consulted only after the height
precondition passes. -/
def getBlock (getHeightRes : Except String Nat)
    (fetchBlocks : Nat → Except String (List RawBlock)) (height : Nat) :
    Except String BlockResult :=
  match getHeightRes with
  | .error e => .error e
  | .ok currentHeight =>
    if height > currentHeight then
      .error ("Запрошенный блок " ++ toString height ++
        " пока недоступен. Текущая высота: " ++ toString currentHeight)
    else
      match fetchBlocks height with
      | .error e => .error e
      | .ok blocks =>
        match blocks.head? with
        | none => .error ("Блок №" ++ toString height ++ " не найден")
        | some block =>
          .ok { height := block.number
                timestampSecStr := beforeFirstDot block.timestampFrom
                transactions := block.transactions.map fun tx =>
                  { hash := tx.transaction_id
                    ticker := "HBAR"
                    «from» := []
                    «to» := []
                    status := blockTxStatus tx.result
                    height := block.number }
                data := block }

/-- One token entry of the Mirror Node account payload. -/
structure TokenBalance where
  token_id : String
  balance : ℤ
deriving DecidableEq

/-- The `data.balance` object of the Mirror Node account payload. -/
structure AccountBalanceData where
  balance : ℤ
  tokens : List TokenBalance
deriving DecidableEq

/-- Result shape of balanceByAddress (BalanceByAddressResult in
src/common/index.ts): both balances as decimal strings. -/
structure BalanceByAddressResult where
  balance : String
  totalBalance : String
deriving DecidableEq

/-- Shallow embedding of HBARNodeAdapter.balanceByAddress
(src/node-adapter.ts lines 230-287).  `fetch` abstracts the Mirror Node
account request: a thrown transport error, or the optional
`data.balance` object (none models a falsy/absent balance field).  The
catch block logs and re-throws, so request errors propagate
unchanged. -/
def balanceByAddress (fetch : Except String (Option AccountBalanceData))
    (ticker address : String) : Except String BalanceByAddressResult :=
  match fetch with
  | .error e => .error e
  | .ok none => .error ("Баланс для адреса " ++ address ++ " не найден")
  | .ok (some data) =>
    let totalBalance := data.balance
    let balance : ℤ :=
      if ticker = "HBAR" then data.balance
      else
        match data.tokens.find? (fun token => token.token_id = ticker) with
        | some tokenBalance => tokenBalance.balance
        | none => 0
    .ok { balance := toString balance, totalBalance := toString totalBalance }

/-- Options of one provider entry (NodesOptions in
src/common/index.ts), restricted to the fields initNodes reads. -/
structure NodeOptions where
  rpcUrl : String
  mirrorUrl : String
  headers : Option (List (String × String))
  confirmationLimit : Option Nat
deriving DecidableEq

/-- The constructor arguments given to HBARNodeAdapter by initNodes:
network, provider name, rpcUrl, mirrorUrl and confirmationLimit —
headers are not among them. -/
structure AdapterConfig where
  network : String
  name : String
  rpcUrl : String
  mirrorUrl : String
  confirmationLimit : Option Nat
deriving DecidableEq

/-- The local headers array built (and then discarded) by initNodes
(src/coin.service.ts lines 50-60): undefined when opts.headers is
absent, otherwise the entries as name/value records. -/
def buildHeaderList : Option (List (String × String)) → Option (List (String × String))
  | none => none
  | some hs => some hs

/-- The adapter constructed for one provider entry
(src/coin.service.ts lines 62-68). -/
def adapterOf (network : String) (entry : String × NodeOptions) : AdapterConfig :=
  { network := network
    name := entry.1
    rpcUrl := entry.2.rpcUrl
    mirrorUrl := entry.2.mirrorUrl
    confirmationLimit := entry.2.confirmationLimit }

/-- Shallow embedding of HBARCoinService.initNodes (src/coin.service.ts
lines 44-70): Object.entries insertion order is the list order; one
adapter per entry; the locally built headers list is dropped. -/
def initNodes (network : String) (nodes : List (String × NodeOptions)) :
    List AdapterConfig :=
  nodes.map fun entry =>
    let _headers := buildHeaderList entry.2.headers
    adapterOf network entry

/-- Erases the headers field of one provider entry (used to state that
initNodes never looks at headers). -/
def eraseHeaders (e : String × NodeOptions) : String × NodeOptions :=
  (e.1, { e.2 with headers := none })

/-! ### Theorems -/

theorem ratMul_eq (a b : ℚ) : ratMul a b = a * b := by
  unfold ratMul
  rw [Rat.mkRat_eq_div]
  push_cast
  rw [← div_mul_div_comm, Rat.num_div_den, Rat.num_div_den]

theorem roundHalfUp_eq (q : ℚ) : roundHalfUp q = ⌊q + 1/2⌋ := by
  unfold roundHalfUp
  have hfl : ∀ r : ℚ, r.floor = ⌊r⌋ := fun r =>
    (Rat.floor_def' r).trans Rat.floor_def.symm
  rw [hfl]
  congr 1
  rw [Rat.mkRat_eq_div]
  push_cast
  have hd : (q.den : ℚ) ≠ 0 := Nat.cast_ne_zero.mpr q.den_nz
  have hq : (q.num : ℚ) = q * q.den := (div_eq_iff hd).mp (Rat.num_div_den q)
  rw [div_eq_iff (mul_ne_zero two_ne_zero hd), hq]
  ring


theorem amountInvalid_iff (a : JSNum) :
    amountInvalid a = true ↔ (a = .nan ∨ jsLe0 a = true) := by
  cases a <;> simp [amountInvalid, jsFalsy, jsLe0]
  intro h
  exact le_of_eq h

theorem amountInvalid_pos_int (n : ℤ) (hn : 0 < n) :
    amountInvalid (.fin (n : ℚ)) = false := by
  have h0 : (0:ℚ) < (n:ℚ) := by exact_mod_cast hn
  simp [amountInvalid, jsFalsy, jsLe0, h0.ne', not_le.mpr h0]

theorem addTransfers_all_valid (factor : JSNum) (msg : String → JSNum → String)
    (neg : Bool) (legs : List TransferLeg)
    (h : ∀ l ∈ legs, amountInvalid (convertAmount factor l.value) = false) :
    addTransfers factor msg neg legs =
      .ok (legs.map fun l => (l.address,
        if neg then jsNeg (convertAmount factor l.value)
        else convertAmount factor l.value)) := by
  induction legs with
  | nil => rfl
  | cons l ls ih =>
    have hl := h l (List.mem_cons_self l ls)
    have hrest := ih fun x hx => h x (List.mem_cons_of_mem l hx)
    simp [addTransfers, hl, hrest]

theorem addTransfers_first_invalid (factor : JSNum) (msg : String → JSNum → String)
    (neg : Bool) (pre : List TransferLeg) (l : TransferLeg) (post : List TransferLeg)
    (hpre : ∀ x ∈ pre, amountInvalid (convertAmount factor x.value) = false)
    (hl : amountInvalid (convertAmount factor l.value) = true) :
    addTransfers factor msg neg (pre ++ l :: post) =
      .error (msg l.address (convertAmount factor l.value)) := by
  induction pre with
  | nil => simp [addTransfers, hl]
  | cons x xs ih =>
    have hx := hpre x (List.mem_cons_self x xs)
    have hrest := ih fun y hy => hpre y (List.mem_cons_of_mem x hy)
    simp [addTransfers, hx, hrest]

theorem txBuild_ok (factor : JSNum) (serialize : List (String × JSNum) → String)
    (p : TransactionParams)
    (hf : normLegs p.«from» ≠ []) (ht : normLegs p.«to» ≠ [])
    (hfa : ∀ l ∈ normLegs p.«from», amountInvalid (convertAmount factor l.value) = false)
    (hta : ∀ l ∈ normLegs p.«to», amountInvalid (convertAmount factor l.value) = false) :
    txBuild factor serialize p = .ok
      { «from» := normLegs p.«from»
        «to» := normLegs p.«to»
        fee := p.fee
        spent := p.spent.getD []
        utxo := p.utxo.getD []
        unsignedTx := serialize
          ((normLegs p.«from»).map (fun l => (l.address, jsNeg (convertAmount factor l.value))) ++
           (normLegs p.«to»).map (fun l => (l.address, convertAmount factor l.value))) } := by
  simp [txBuild, hf, ht, addTransfers_all_valid factor debitMsg true _ hfa,
    addTransfers_all_valid factor creditMsg false _ hta]

/-- C1 (amended): the converted atomic amount of a leg is
round(value x factor); txBuild rejects, with an error message naming the
first offending leg address, exactly when that amount is zero, negative
(including -Infinity) or NaN — the from legs are checked first, in
order, then the to legs; when the converted amount is a positive integer
for every leg (and both lists are non-empty) no amount error is raised
and the serialized transaction uses round(value x factor) tinybars per
leg (negated for senders).  Positive Infinity is NOT rejected by the
amount check, contrary to the claim as stated (see the counterexample). -/
theorem txBuild_amount_validation
    (factor : JSNum) (serialize : List (String × JSNum) → String)
    (p : TransactionParams) :
    ((∀ l ∈ normLegs p.«from» ++ normLegs p.«to»,
        ∃ n : ℤ, 0 < n ∧ convertAmount factor l.value = .fin (n : ℚ)) →
      normLegs p.«from» ≠ [] → normLegs p.«to» ≠ [] →
      txBuild factor serialize p = .ok
        { «from» := normLegs p.«from»
          «to» := normLegs p.«to»
          fee := p.fee
          spent := p.spent.getD []
          utxo := p.utxo.getD []
          unsignedTx := serialize
            ((normLegs p.«from»).map
              (fun l => (l.address, jsNeg (convertAmount factor l.value))) ++
             (normLegs p.«to»).map
              (fun l => (l.address, convertAmount factor l.value))) }) ∧
    (∀ pre l post, normLegs p.«from» = pre ++ l :: post →
      normLegs p.«to» ≠ [] →
      (∀ x ∈ pre, amountInvalid (convertAmount factor x.value) = false) →
      (convertAmount factor l.value = .nan ∨
        jsLe0 (convertAmount factor l.value) = true) →
      txBuild factor serialize p =
        .error (debitMsg l.address (convertAmount factor l.value))) ∧
    (∀ pre l post, normLegs p.«to» = pre ++ l :: post →
      normLegs p.«from» ≠ [] →
      (∀ x ∈ normLegs p.«from», amountInvalid (convertAmount factor x.value) = false) →
      (∀ x ∈ pre, amountInvalid (convertAmount factor x.value) = false) →
      (convertAmount factor l.value = .nan ∨
        jsLe0 (convertAmount factor l.value) = true) →
      txBuild factor serialize p =
        .error (creditMsg l.address (convertAmount factor l.value))) := by
  refine ⟨?_, ?_, ?_⟩
  · intro hpos hf ht
    refine txBuild_ok factor serialize p hf ht ?_ ?_
    · intro l hl
      obtain ⟨n, hn, he⟩ := hpos l (List.mem_append_left _ hl)
      rw [he]; exact amountInvalid_pos_int n hn
    · intro l hl
      obtain ⟨n, hn, he⟩ := hpos l (List.mem_append_right _ hl)
      rw [he]; exact amountInvalid_pos_int n hn
  · intro pre l post hsplit ht hpre hinv
    have hl : amountInvalid (convertAmount factor l.value) = true :=
      (amountInvalid_iff _).mpr hinv
    have hf : normLegs p.«from» ≠ [] := by
      rw [hsplit]; exact List.append_ne_nil_of_right_ne_nil _ (List.cons_ne_nil l post)
    have herr := addTransfers_first_invalid factor debitMsg true pre l post hpre hl
    rw [← hsplit] at herr
    simp [txBuild, hf, ht, herr]
  · intro pre l post hsplit hf hfrom hpre hinv
    have hl : amountInvalid (convertAmount factor l.value) = true :=
      (amountInvalid_iff _).mpr hinv
    have ht : normLegs p.«to» ≠ [] := by
      rw [hsplit]; exact List.append_ne_nil_of_right_ne_nil _ (List.cons_ne_nil l post)
    have hok := addTransfers_all_valid factor debitMsg true _ hfrom
    have herr := addTransfers_first_invalid factor creditMsg false pre l post hpre hl
    rw [← hsplit] at herr
    simp [txBuild, hf, ht, hok, herr]

/-- C1 witness: a build with from value 1 and to value 2 under the
default factor succeeds, using 100000000 and 200000000 tinybars. -/
theorem txBuild_amount_validation_witness :
    txBuild defaultFactor (fun _ => "W")
      { «from» := .inr [⟨"A", .fin 1⟩], «to» := .inr [⟨"B", .fin 2⟩],
        fee := none, spent := none, utxo := none, unsignedTx := "" } =
      .ok { «from» := [⟨"A", .fin 1⟩], «to» := [⟨"B", .fin 2⟩], fee := none,
            spent := [], utxo := [],
            unsignedTx := (fun _ => "W")
              ([("A", jsNeg (convertAmount defaultFactor (.fin 1)))] ++
               [("B", convertAmount defaultFactor (.fin 2))]) } := by
  refine (txBuild_amount_validation defaultFactor (fun _ => "W") _).1 ?_ (by decide) (by decide)
  intro l hl
  simp only [normLegs, List.mem_append, List.mem_cons, List.not_mem_nil, or_false] at hl
  rcases hl with h | h
  · exact ⟨100000000, by norm_num, by rw [h]; decide⟩
  · exact ⟨200000000, by norm_num, by rw [h]; decide⟩

/-- C1 counterexample: a from leg whose JavaScript value is Infinity
(for instance the string "Infinity", since Number("Infinity") is
Infinity) converts to a non-finite atomic amount, yet txBuild raises no
error: the check `!amountTiny || amountTiny <= 0` is false for
+Infinity, so the claim "not a finite number is rejected" fails. -/
theorem txBuild_infinity_not_rejected :
    jsIsFinite (convertAmount defaultFactor .inf) = false ∧
    txBuild defaultFactor (fun _ => "W")
      { «from» := .inr [⟨"0.0.1001", .inf⟩], «to» := .inr [⟨"0.0.2002", .fin 1⟩],
        fee := none, spent := none, utxo := none, unsignedTx := "" } =
      .ok { «from» := [⟨"0.0.1001", .inf⟩], «to» := [⟨"0.0.2002", .fin 1⟩],
            fee := none, spent := [], utxo := [], unsignedTx := "W" } :=
  ⟨by decide, by decide⟩

/-- C2: txBuild normalizes from/to to arrays: a singular leg X and Y
(with valid amounts) produce a result with from = [X] and to = [Y]; and
when from/to are already (non-empty, valid) arrays, the returned from
and to are exactly the input arrays, unchanged in order and value. -/
theorem txBuild_normalization
    (factor : JSNum) (serialize : List (String × JSNum) → String) :
    (∀ (X Y : TransferLeg) (fee : Option ℚ)
       (spent utxo : Option (List (String × List String))) (u : String),
       amountInvalid (convertAmount factor X.value) = false →
       amountInvalid (convertAmount factor Y.value) = false →
       ∃ b, txBuild factor serialize
           { «from» := .inl X, «to» := .inl Y, fee := fee, spent := spent,
             utxo := utxo, unsignedTx := u } = .ok b ∧
         b.«from» = [X] ∧ b.«to» = [Y]) ∧
    (∀ (p : TransactionParams) (fs ts : List TransferLeg),
       p.«from» = .inr fs → p.«to» = .inr ts → fs ≠ [] → ts ≠ [] →
       (∀ l ∈ fs, amountInvalid (convertAmount factor l.value) = false) →
       (∀ l ∈ ts, amountInvalid (convertAmount factor l.value) = false) →
       ∃ b, txBuild factor serialize p = .ok b ∧ b.«from» = fs ∧ b.«to» = ts) := by
  constructor
  · intro X Y fee spent utxo u hX hY
    refine ⟨_, txBuild_ok factor serialize _ (by simp [normLegs]) (by simp [normLegs])
      ?_ ?_, rfl, rfl⟩
    · intro l hl
      simp only [normLegs, List.mem_singleton] at hl
      rw [hl]; exact hX
    · intro l hl
      simp only [normLegs, List.mem_singleton] at hl
      rw [hl]; exact hY
  · intro p fs ts hfs hts hfne htne hfa hta
    have h1 : normLegs p.«from» = fs := by rw [hfs]; rfl
    have h2 : normLegs p.«to» = ts := by rw [hts]; rfl
    refine ⟨_, txBuild_ok factor serialize p (by rw [h1]; exact hfne)
      (by rw [h2]; exact htne) ?_ ?_, h1, h2⟩
    · rw [h1]; exact hfa
    · rw [h2]; exact hta

/-- C2 witness: concrete singular legs are wrapped into singleton
arrays. -/
theorem txBuild_normalization_witness :
    ∃ b, txBuild defaultFactor (fun _ => "W")
        { «from» := .inl ⟨"A", .fin 1⟩, «to» := .inl ⟨"B", .fin 2⟩,
          fee := none, spent := none, utxo := none, unsignedTx := "" } = .ok b ∧
      b.«from» = [⟨"A", .fin 1⟩] ∧ b.«to» = [⟨"B", .fin 2⟩] :=
  (txBuild_normalization defaultFactor (fun _ => "W")).1
    ⟨"A", .fin 1⟩ ⟨"B", .fin 2⟩ none none none "" (by decide) (by decide)

/-- C3 (amended): txBuild with an empty normalized from list always
fails with the missing-senders message; with a non-empty from list and
an empty to list it always fails with the missing-receivers message.
When both lists are empty the senders check fires first, so the error
message references the senders only (see the counterexample). -/
theorem txBuild_empty_lists
    (factor : JSNum) (serialize : List (String × JSNum) → String)
    (p : TransactionParams) :
    (normLegs p.«from» = [] →
       txBuild factor serialize p = .error "Отсутствует список отправителей") ∧
    (normLegs p.«from» ≠ [] → normLegs p.«to» = [] →
       txBuild factor serialize p = .error "Отсутствует список получателей") := by
  constructor
  · intro h; simp [txBuild, h]
  · intro hf h; simp [txBuild, hf, h]

/-- C3 witness: an empty from array fails with the missing-senders
message; a non-empty from with an empty to array fails with the
missing-receivers message. -/
theorem txBuild_empty_lists_witness :
    txBuild defaultFactor (fun _ => "W")
      { «from» := .inr [], «to» := .inr [⟨"B", .fin 1⟩],
        fee := none, spent := none, utxo := none, unsignedTx := "" } =
      .error "Отсутствует список отправителей" ∧
    txBuild defaultFactor (fun _ => "W")
      { «from» := .inr [⟨"A", .fin 1⟩], «to» := .inr [],
        fee := none, spent := none, utxo := none, unsignedTx := "" } =
      .error "Отсутствует список получателей" :=
  ⟨(txBuild_empty_lists defaultFactor (fun _ => "W") _).1 rfl,
   (txBuild_empty_lists defaultFactor (fun _ => "W") _).2 (by decide) rfl⟩

/-- C3 counterexample: when both normalized lists are empty the error
message references the senders list, not the receivers list, so the
claim clause "for every params whose normalized to list is empty the
message references the receivers" fails. -/
theorem txBuild_both_empty_senders_error :
    txBuild defaultFactor (fun _ => "W")
      { «from» := .inr [], «to» := .inr [],
        fee := none, spent := none, utxo := none, unsignedTx := "" } =
      .error "Отсутствует список отправителей" ∧
    "Отсутствует список отправителей" ≠ "Отсутствует список получателей" :=
  ⟨by decide, by decide⟩

/-- C4: txSign fails with the missing-unsigned-data message whenever
unsignedTx is empty; with a non-empty unsignedTx and a first from leg
whose address has no (or an empty) entry in the key map it fails with
the missing-private-key message naming that signer; when both
preconditions hold and the SDK signing succeeds it returns
{signedData, txHash}; and any error thrown during signing is returned
to the caller unchanged. -/
theorem txSign_contract (sign : String → String → Except String SignedTx)
    (privateKeys : List (String × String)) (p : TransactionParams) :
    (p.unsignedTx = "" →
      txSign sign privateKeys p = .error "Нет данных для подписи (unsignedTx)") ∧
    (∀ leg, p.unsignedTx ≠ "" → legsIndex0 p.«from» = some leg →
      (jsLookup privateKeys leg.address = none ∨
        jsLookup privateKeys leg.address = some "") →
      txSign sign privateKeys p = .error ("Нет приватного ключа для " ++ leg.address)) ∧
    (∀ leg k st, p.unsignedTx ≠ "" → legsIndex0 p.«from» = some leg →
      jsLookup privateKeys leg.address = some k → k ≠ "" →
      sign k p.unsignedTx = .ok st →
      txSign sign privateKeys p =
        .ok { signedData := st.bytesHex, txHash := st.txid.getD "" }) ∧
    (∀ leg k e, p.unsignedTx ≠ "" → legsIndex0 p.«from» = some leg →
      jsLookup privateKeys leg.address = some k → k ≠ "" →
      sign k p.unsignedTx = .error e →
      txSign sign privateKeys p = .error e) := by
  refine ⟨?_, ?_, ?_, ?_⟩
  · intro h; simp [txSign, h]
  · intro leg hu hleg hk
    rcases hk with hk | hk <;> simp [txSign, hu, hleg, hk]
  · intro leg k st hu hleg hk hne hs
    simp [txSign, hu, hleg, hk, hne, hs]
  · intro leg k e hu hleg hk hne hs
    simp [txSign, hu, hleg, hk, hne, hs]

/-- C4 witness: a concrete successful signing run. -/
theorem txSign_contract_witness :
    txSign (fun _ _ => .ok { bytesHex := "DE", txid := some "T1" })
      [("A", "priv")]
      { «from» := .inr [⟨"A", .fin 1⟩], «to» := .inr [⟨"B", .fin 1⟩],
        fee := none, spent := none, utxo := none, unsignedTx := "AB" } =
      .ok { signedData := "DE", txHash := "T1" } :=
  (txSign_contract (fun _ _ => .ok { bytesHex := "DE", txid := some "T1" })
      [("A", "priv")] _).2.2.1
    ⟨"A", .fin 1⟩ "priv" { bytesHex := "DE", txid := some "T1" }
    (by decide) (by decide) (by decide) (by decide) rfl

/-- C5: addressValidate is total (encoded by its value return type:
every SDK parse throw is caught and becomes a reason string) and for
every combination of inputs and parser behaviours returns exactly the
outcome of the first failing check in the fixed order: address present,
address parses, private key present, private key parses, public key
present, public key parses, derived public key equals the supplied
one — or the literal true when all pass. -/
theorem addressValidate_first_failure {PrivK PubK : Type}
    (P : HederaParsers PrivK PubK) (address privateKey publicKey : String) :
    addressValidate P address privateKey publicKey =
      firstFailure (specChecks P address privateKey publicKey) := by
  simp only [addressValidate, specChecks, firstFailure, keysMatch]
  by_cases h1 : address = "" <;> simp [h1]
  all_goals by_cases h2 : P.parseAccountId address = true <;> simp [h2]
  all_goals by_cases h3 : privateKey = "" <;> simp [h3]
  all_goals cases hp : P.parsePrivateKey privateKey <;> simp [hp]
  all_goals by_cases h5 : publicKey = "" <;> simp [h5]
  all_goals cases hq : P.parsePublicKey publicKey <;> simp [hq]

/-- C6: txBroadcast is a total function into the typed result domain:
for every environment, collaborator behaviour and input it returns
either success {hash} or failure {error} — never an exception — with
missing signedData, missing operator configuration, operator parse
failures and SDK or network failures all mapped to the failure
variant carrying the error message. -/
theorem txBroadcast_total (env : BroadcastEnv) (ops : BroadcastOps)
    (p : TransactionBroadcastParams) :
    ((∃ h, txBroadcast env ops p = .success h) ∨
      (∃ m, txBroadcast env ops p = .failure m)) ∧
    (p.signedData = "" →
      txBroadcast env ops p = .failure "Отсутствует signedData") ∧
    (p.signedData ≠ "" →
      (jsPresent env.operatorId = none ∨ jsPresent env.operatorKey = none) →
      txBroadcast env ops p =
        .failure "Не заданы FAST_TEST_FROM_ID или FAST_TEST_FROM_PRIVATE_KEY") ∧
    (∀ oid okey e, p.signedData ≠ "" → jsPresent env.operatorId = some oid →
      jsPresent env.operatorKey = some okey → ops.setOperator oid okey = .error e →
      txBroadcast env ops p = .failure e) ∧
    (∀ oid okey e, p.signedData ≠ "" → jsPresent env.operatorId = some oid →
      jsPresent env.operatorKey = some okey → ops.setOperator oid okey = .ok () →
      ops.runTx (if isHexStr p.signedData then .hex else .base64) p.signedData =
        .error e →
      txBroadcast env ops p = .failure e) ∧
    (∀ oid okey txid st, p.signedData ≠ "" → jsPresent env.operatorId = some oid →
      jsPresent env.operatorKey = some okey → ops.setOperator oid okey = .ok () →
      ops.runTx (if isHexStr p.signedData then .hex else .base64) p.signedData =
        .ok (txid, st) →
      txBroadcast env ops p = .success txid) := by
  refine ⟨?_, ?_, ?_, ?_, ?_, ?_⟩
  · cases h : txBroadcast env ops p with
    | success hash => exact Or.inl ⟨hash, rfl⟩
    | failure msg => exact Or.inr ⟨msg, rfl⟩
  · intro h; simp [txBroadcast, h]
  · intro hs hmiss
    rcases hmiss with hm | hm <;>
      · cases h2 : jsPresent env.operatorId <;>
          cases h3 : jsPresent env.operatorKey <;>
          simp_all [txBroadcast]
  · intro oid okey e hs h1 h2 hop
    simp [txBroadcast, hs, h1, h2, hop]
  · intro oid okey e hs h1 h2 hop hrun
    simp [txBroadcast, hs, h1, h2, hop, hrun]
  · intro oid okey txid st hs h1 h2 hop hrun
    simp [txBroadcast, hs, h1, h2, hop, hrun]

/-- C6 witness: a concrete successful broadcast and a concrete network
failure, both returned as typed results. -/
theorem txBroadcast_total_witness :
    txBroadcast { operatorId := some "0.0.2", operatorKey := some "key" }
      { setOperator := fun _ _ => .ok (), runTx := fun _ _ => .ok ("0.0.2@7", "OK") }
      { signedData := "ABCD" } = .success "0.0.2@7" ∧
    txBroadcast { operatorId := some "0.0.2", operatorKey := some "key" }
      { setOperator := fun _ _ => .ok (), runTx := fun _ _ => .error "network down" }
      { signedData := "ABCD" } = .failure "network down" :=
  ⟨(txBroadcast_total { operatorId := some "0.0.2", operatorKey := some "key" }
      { setOperator := fun _ _ => .ok (), runTx := fun _ _ => .ok ("0.0.2@7", "OK") }
      { signedData := "ABCD" }).2.2.2.2.2 "0.0.2" "key" "0.0.2@7" "OK"
      (by decide) (by decide) (by decide) rfl rfl,
   (txBroadcast_total { operatorId := some "0.0.2", operatorKey := some "key" }
      { setOperator := fun _ _ => .ok (), runTx := fun _ _ => .error "network down" }
      { signedData := "ABCD" }).2.2.2.2.1 "0.0.2" "key" "network down"
      (by decide) (by decide) (by decide) rfl rfl⟩

/-- C7: getBlock consults the getHeight result first and, whenever the
requested height exceeds the current height, fails with the error
message referencing both heights — and the result is independent of the
block-fetch collaborator, i.e. the request to the indexer is never
issued in that case. -/
theorem getBlock_height_precondition (current height : Nat)
    (fetchBlocks : Nat → Except String (List RawBlock))
    (hgt : height > current) :
    getBlock (.ok current) fetchBlocks height =
      .error ("Запрошенный блок " ++ toString height ++
        " пока недоступен. Текущая высота: " ++ toString current) ∧
    (∀ fetchBlocks2, getBlock (.ok current) fetchBlocks height =
      getBlock (.ok current) fetchBlocks2 height) := by
  constructor
  · simp [getBlock, hgt]
  · intro f2; simp [getBlock, hgt]

/-- C7 witness: the spec scenario getBlock(150) at current height 100
fails referencing both 150 and 100, for any fetch behaviour. -/
theorem getBlock_height_precondition_witness :
    getBlock (.ok 100) (fun _ => .ok []) 150 =
      .error "Запрошенный блок 150 пока недоступен. Текущая высота: 100" ∧
    getBlock (.ok 100) (fun _ => .ok []) 150 =
      getBlock (.ok 100) (fun _ => .error "never reached") 150 := by
  have h := getBlock_height_precondition 100 150 (fun _ => .ok []) (by decide)
  exact ⟨h.1, h.2 _⟩

/-- C8 counterexample: a block whose transaction has provider result
SUCCESS yields status "success", a raw string that is not one of the
three TxStatus values finished, failed, unknown. -/
theorem getBlock_status_not_txstatus :
    (getBlock (.ok 100)
        (fun _ => .ok [{ number := 90
                         timestampFrom := "123.456"
                         transactions := [{ transaction_id := "t1", result := "SUCCESS" }] }])
        90).toOption.map
      (fun b => b.transactions.map fun tx => tx.status) = some ["success"] ∧
    "success" ∉ txStatusValues :=
  ⟨by decide, by decide⟩

/-- C8 (amended): every transaction in a successful getBlock result
carries the raw string "success" (exactly when the provider result code
is SUCCESS) or "failed" (otherwise) — never "unknown", and not a value
of the three-valued TxStatus domain in the success case. -/
theorem getBlock_status_mapping (getHeightRes : Except String Nat)
    (fetchBlocks : Nat → Except String (List RawBlock)) (height : Nat)
    (b : BlockResult) (hb : getBlock getHeightRes fetchBlocks height = .ok b) :
    ∀ tx ∈ b.transactions,
      (tx.status = "success" ∨ tx.status = "failed") ∧
      tx.status ≠ "finished" ∧ tx.status ≠ "unknown" := by
  cases getHeightRes with
  | error e => simp [getBlock] at hb
  | ok current =>
    by_cases hgt : height > current
    · simp [getBlock, hgt] at hb
    · cases hf : fetchBlocks height with
      | error e => simp [getBlock, hgt, hf] at hb
      | ok blocks =>
        cases hh : blocks.head? with
        | none => simp [getBlock, hgt, hf, hh] at hb
        | some block =>
          have hok : getBlock (Except.ok current) fetchBlocks height = Except.ok
              { height := block.number
                timestampSecStr := beforeFirstDot block.timestampFrom
                transactions := block.transactions.map fun tx =>
                  { hash := tx.transaction_id
                    ticker := "HBAR"
                    «from» := []
                    «to» := []
                    status := blockTxStatus tx.result
                    height := block.number }
                data := block } := by
            simp [getBlock, hgt, hf, hh]
          have hbb := Except.ok.inj (hok.symm.trans hb)
          intro tx htx
          rw [← hbb] at htx
          simp only [List.mem_map] at htx
          obtain ⟨r, hr, htx⟩ := htx
          rw [← htx]
          by_cases hs : r.result = "SUCCESS" <;> simp [blockTxStatus, hs]

/-- C8 witness for the amended mapping: in the concrete SUCCESS block,
the contained transaction's status is the raw string computed by the
getBlock status mapping, not "finished" and not "unknown". -/
theorem getBlock_status_mapping_witness :
    (blockTxStatus "SUCCESS" = "success" ∨ blockTxStatus "SUCCESS" = "failed") ∧
    blockTxStatus "SUCCESS" ≠ "finished" ∧ blockTxStatus "SUCCESS" ≠ "unknown" :=
  getBlock_status_mapping (.ok 100)
    (fun _ => .ok [{ number := 90
                     timestampFrom := "123.456"
                     transactions := [{ transaction_id := "t1", result := "SUCCESS" }] }])
    90
    { height := 90
      timestampSecStr := "123"
      transactions := [{ hash := "t1"
                         ticker := "HBAR"
                         «from» := []
                         «to» := []
                         status := "success"
                         height := 90 }]
      data := { number := 90
                timestampFrom := "123.456"
                transactions := [{ transaction_id := "t1", result := "SUCCESS" }] } }
    (by decide)
    { hash := "t1"
      ticker := "HBAR"
      «from» := []
      «to» := []
      status := blockTxStatus "SUCCESS"
      height := 90 }
    (by decide)

/-- C9: balanceByAddress splits the upstream account data into balance
(the native amount for ticker HBAR, otherwise the balance of the first
token whose token_id equals the ticker, or 0 when absent) and
totalBalance (the native total regardless of ticker), both rendered as
decimal strings; in particular the TOKEN1 scenario of the spec. -/
theorem balanceByAddress_split (d : AccountBalanceData) (ticker address : String) :
    (ticker = "HBAR" → balanceByAddress (.ok (some d)) ticker address =
      .ok { balance := toString d.balance, totalBalance := toString d.balance }) ∧
    (∀ t, ticker ≠ "HBAR" →
      d.tokens.find? (fun tok => tok.token_id = ticker) = some t →
      balanceByAddress (.ok (some d)) ticker address =
        .ok { balance := toString t.balance, totalBalance := toString d.balance }) ∧
    (ticker ≠ "HBAR" →
      d.tokens.find? (fun tok => tok.token_id = ticker) = none →
      balanceByAddress (.ok (some d)) ticker address =
        .ok { balance := "0", totalBalance := toString d.balance }) ∧
    (balanceByAddress (.ok (some ({ balance := 1000
                                    tokens := [{ token_id := "TOKEN1", balance := 200 }] } :
          AccountBalanceData))) "TOKEN1" address =
      .ok { balance := "200", totalBalance := "1000" }) := by
  refine ⟨?_, ?_, ?_, ?_⟩
  · intro h; simp [balanceByAddress, h]
  · intro t hne hf; simp [balanceByAddress, hne, hf]
  · intro hne hf
    simp [balanceByAddress, hne, hf]
    rfl
  · simp [balanceByAddress, List.find?]
    exact ⟨rfl, rfl⟩

/-- C9 witness: the native split and the token scenario at concrete
data. -/
theorem balanceByAddress_split_witness :
    balanceByAddress (.ok (some { balance := 5, tokens := [] })) "HBAR" "0.0.7" =
      .ok { balance := "5", totalBalance := "5" } ∧
    balanceByAddress (.ok (some ({ balance := 1000
                                   tokens := [{ token_id := "TOKEN1", balance := 200 }] } :
          AccountBalanceData))) "TOKEN1" "0.0.7" =
      .ok { balance := "200", totalBalance := "1000" } :=
  ⟨(balanceByAddress_split { balance := 5, tokens := [] } "HBAR" "0.0.7").1 rfl,
   (balanceByAddress_split ({ balance := 1000
                              tokens := [{ token_id := "TOKEN1", balance := 200 }] } :
        AccountBalanceData) "TOKEN1" "0.0.7").2.2.2⟩

/-- C10: the adapter list built by initNodes is exactly one adapter per
entry, in insertion order, built only from the network, entry name,
rpcUrl, mirrorUrl and confirmationLimit; consequently two node-option
mappings that agree after erasing headers produce identical adapter
lists — caller-supplied headers are never forwarded to any adapter. -/
theorem initNodes_headers_noninterference (network : String)
    (ns1 ns2 : List (String × NodeOptions)) :
    initNodes network ns1 = ns1.map (adapterOf network) ∧
    (ns1.map eraseHeaders = ns2.map eraseHeaders →
      initNodes network ns1 = initNodes network ns2) := by
  have key : ∀ ns : List (String × NodeOptions),
      initNodes network ns = (ns.map eraseHeaders).map (adapterOf network) := by
    intro ns
    rw [List.map_map]
    rfl
  refine ⟨rfl, fun h => ?_⟩
  rw [key, key, h]

/-- C10 witness: two concrete option maps differing only in headers
yield the same adapter list. -/
theorem initNodes_headers_noninterference_witness :
    initNodes "HBAR"
      [("QuickNode", { rpcUrl := "https://rpc"
                       mirrorUrl := "https://mirror"
                       headers := some [("api-key", "secret")]
                       confirmationLimit := some 3 })] =
    initNodes "HBAR"
      [("QuickNode", { rpcUrl := "https://rpc"
                       mirrorUrl := "https://mirror"
                       headers := none
                       confirmationLimit := some 3 })] :=
  (initNodes_headers_noninterference "HBAR"
    [("QuickNode", { rpcUrl := "https://rpc"
                     mirrorUrl := "https://mirror"
                     headers := some [("api-key", "secret")]
                     confirmationLimit := some 3 })]
    [("QuickNode", { rpcUrl := "https://rpc"
                     mirrorUrl := "https://mirror"
                     headers := none
                     confirmationLimit := some 3 })]).2 (by decide)
